import Mathlib

/-!
Shallow embedding of the connection resilience coordinator of the
qpid-proton C++ binding, as exercised by cpp/src/reconnect_test.cpp.
The coordinator implementation itself is not among the available
sources (only its test file is), so the data model and the transition
function are modelled from the specification (sections 3 and 4), with
the address-cursor rule pinned down by the strict attempt sequences
asserted in test_reconnect_update_failover and
test_reconnect_update_simple, and the reconnected predicate pinned
down by the assertions in tester_base (reconnect_test.cpp lines
131-138 and 156-159).
-/

namespace Reconnect

/-- A connection target: host name or URL, as used by the tests. -/
abbrev Address := String

/-- Modelled from the spec: the ReconnectPolicy of section 3 (the
reconnect options of the missing coordinator sources): backoff fields,
an optional attempt limit, and an optional sticky override address
(the reconnect_url of the C++ API). Absence of a policy on the
configuration means reconnection is disabled. -/
structure ReconnectPolicy where
  initial_delay : Nat
  multiplier : Nat
  max_delay : Nat
  max_attempts : Option Nat
  sticky_override_address : Option Address
deriving DecidableEq, Repr

/-- Modelled from the spec: a partial update of a ReconnectPolicy.
A field left none keeps the base value, a set field replaces it
(section 4.1 applied to the reconnect options). -/
structure PolicyUpdate where
  initial_delay : Option Nat
  multiplier : Option Nat
  max_delay : Option Nat
  max_attempts : Option (Option Nat)
  sticky_override_address : Option (Option Address)
deriving DecidableEq, Repr

/-- Modelled from the spec: per-field overlay of a policy update onto
a policy. -/
def overlayP (p : ReconnectPolicy) (u : PolicyUpdate) : ReconnectPolicy :=
  { initial_delay := u.initial_delay.getD p.initial_delay
    multiplier := u.multiplier.getD p.multiplier
    max_delay := u.max_delay.getD p.max_delay
    max_attempts := u.max_attempts.getD p.max_attempts
    sticky_override_address := u.sticky_override_address.getD p.sticky_override_address }

/-- Modelled from the spec: default reconnect options, as produced by
the argument-free reconnect_options constructor used by the tests. -/
def defaultPolicy : ReconnectPolicy :=
  { initial_delay := 10
    multiplier := 2
    max_delay := 600000
    max_attempts := none
    sticky_override_address := none }

/-- Modelled from the spec: the ConnectionConfiguration of section 3:
base address, optional reconnect policy, failover list, plus the
unrelated settings exercised by the tests (virtual host, user). -/
structure ConnectionConfiguration where
  base_address : Address
  reconnect : Option ReconnectPolicy
  failover_list : List Address
  virtual_host : Option String
  user : Option String
deriving DecidableEq, Repr

/-- Modelled from the spec: a partial configuration update, the value
passed to update_options. A field left none keeps the base value. The
reconnect field, when present, is itself a partial update merged into
the current policy. -/
structure ConfigUpdate where
  base_address : Option Address
  reconnect : Option PolicyUpdate
  failover_list : Option (List Address)
  virtual_host : Option String
  user : Option String
deriving DecidableEq, Repr

/-- Modelled from the spec: overlay of section 4.1. For every field an
explicit value in the update wins, otherwise the base value is kept.
Merging a policy update onto a configuration without a policy starts
from the default policy. -/
def overlay (cfg : ConnectionConfiguration) (u : ConfigUpdate) : ConnectionConfiguration :=
  { base_address := u.base_address.getD cfg.base_address
    reconnect :=
      match u.reconnect with
      | none => cfg.reconnect
      | some pu => some (overlayP (cfg.reconnect.getD defaultPolicy) pu)
    failover_list := u.failover_list.getD cfg.failover_list
    virtual_host :=
      match u.virtual_host with
      | none => cfg.virtual_host
      | some v => some v
    user :=
      match u.user with
      | none => cfg.user
      | some v => some v }

/-- Apply an optional update requested during a failure callback. -/
def applyUpdate (cfg : ConnectionConfiguration) : Option ConfigUpdate → ConnectionConfiguration
  | none => cfg
  | some u => overlay cfg u

/-- The sticky override address currently carried by a configuration,
if any. -/
def stickyOf (cfg : ConnectionConfiguration) : Option Address :=
  match cfg.reconnect with
  | none => none
  | some p => p.sticky_override_address

/-- True when a configuration update leaves the sticky override
address of the policy untouched. -/
def keepsSticky (u : ConfigUpdate) : Bool :=
  match u.reconnect with
  | none => true
  | some pu => pu.sticky_override_address.isNone

/-- Modelled from the spec: the coordinator phases of section 4.4.
The PendingRetry phase of the spec is merged into connecting, since
the retry delay is not observable through any claim. -/
inductive Phase where
  | connecting
  | opened
  | closed
  | failed
deriving DecidableEq, Repr

/-- Modelled from the spec: the per-connection ConnectionState of
section 3, owned by the coordinator. attempt_count is the number of
transport attempts started so far (1 once the connect is issued);
current_address is the target of the attempt in flight. -/
structure ConnectionState where
  config : ConnectionConfiguration
  attempt_count : Nat
  failover_cursor : Nat
  pending_override : Option Address
  aborted : Bool
  phase : Phase
  current_address : Address
deriving DecidableEq, Repr

/-- Modelled from the spec: the reconnected predicate exposed to the
application. It holds exactly when the current transport is not the
first one of the logical connection, i.e. when at least one earlier
attempt failed. This is the only semantics consistent with both
assertion sites of tester_base in reconnect_test.cpp (lines 136 and
157). -/
def ConnectionState.reconnected (st : ConnectionState) : Bool :=
  decide (1 < st.attempt_count)

/-- Modelled from the spec: state created when a connect operation is
issued (section 2): the very first attempt opens a transport to the
base address; the failover cursor starts at the implicit base slot. -/
def initState (cfg : ConnectionConfiguration) : ConnectionState :=
  { config := cfg
    attempt_count := 1
    failover_cursor := 0
    pending_override := none
    aborted := false
    phase := Phase.connecting
    current_address := cfg.base_address }

/-- Modelled from the spec: the retry scheduler check of section 4.3:
scheduling attempt number n fails exactly when the policy sets
max_attempts and n exceeds it. Without a policy no retry is ever
scheduled. -/
def retriesExhausted (cfg : ConnectionConfiguration) (n : Nat) : Bool :=
  match cfg.reconnect with
  | none => true
  | some p =>
    match p.max_attempts with
    | none => false
    | some m => decide (m < n)

/-- Modelled from the spec: the Address Sequencer of section 4.2. A
pending one-shot override is consumed first; otherwise a sticky
override wins unconditionally; otherwise the candidate sequence is the
base address followed by the failover list, round robin. The cursor
rule advances first and then reads, matching the attempt sequences
asserted by test_reconnect_update_failover. -/
def next_address (st : ConnectionState) : Address × ConnectionState :=
  match st.pending_override with
  | some a => (a, { st with pending_override := none })
  | none =>
    match stickyOf st.config with
    | some a => (a, st)
    | none =>
      let c := (st.failover_cursor + 1) % (st.config.failover_list.length + 1)
      ((st.config.base_address :: st.config.failover_list).getD c st.config.base_address,
       { st with failover_cursor := c })

/-- The kind of a transport failure. An authentication failure is
delivered through the same path as a network-level failure. -/
inductive FailKind where
  | network
  | authentication
deriving DecidableEq, Repr

/-- What the application does from inside the transport-error
callback: it may close the connection and it may request a
configuration update. -/
structure Reaction where
  close : Bool
  update : Option ConfigUpdate
deriving DecidableEq, Repr

/-- Environment events driving one logical connection: a completed
handshake, a transport failure carrying the application reaction
executed inside the callback, or a clean application close from
outside any callback. -/
inductive EEvent where
  | handshake_ok
  | transport_failure (kind : FailKind) (r : Reaction)
  | app_close
deriving DecidableEq, Repr

/-- True when an optional update leaves the sticky override address
untouched. -/
def keepsStickyO : Option ConfigUpdate → Bool
  | none => true
  | some u => keepsSticky u

/-- True when the update possibly requested by an event leaves the
sticky override address untouched. -/
def eventKeepsSticky : EEvent → Bool
  | EEvent.transport_failure _ r => keepsStickyO r.update
  | _ => true

/-- The notifications observable by the application: connection open
(with the reconnected flag), retryable transport error (with the
address attempted and the reconnected flag), terminal connection
error, and the clean close notification. -/
inductive Notification where
  | conn_open (reconnected : Bool)
  | transport_err (addr : Address) (reconnected : Bool)
  | conn_error
  | conn_close
deriving DecidableEq, Repr

/-- Modelled from the spec: handling of one transport failure by the
coordinator (section 4.4). Without a policy the failure is terminal:
a connection error followed by a close notification. With a policy a
retryable transport error referencing the attempted address is
reported; a close from inside the callback aborts with no further
notification; otherwise the requested update is overlaid, and either
retries are exhausted (terminal) or the sequencer picks the next
target and a new attempt starts. -/
def handleFailure (st : ConnectionState) (r : Reaction) : ConnectionState × List Notification :=
  match st.config.reconnect with
  | none => ({ st with phase := Phase.failed }, [Notification.conn_error, Notification.conn_close])
  | some _ =>
    let note := Notification.transport_err st.current_address st.reconnected
    if r.close then
      ({ st with phase := Phase.closed, aborted := true }, [note])
    else
      let cfg2 := applyUpdate st.config r.update
      if retriesExhausted cfg2 (st.attempt_count + 1) then
        ({ st with config := cfg2, phase := Phase.failed }, [note, Notification.conn_close])
      else
        let p := next_address { st with config := cfg2 }
        ({ p.2 with
            current_address := p.1
            attempt_count := st.attempt_count + 1
            phase := Phase.connecting }, [note])

/-- Modelled from the spec: one step of the coordinator state machine.
Terminal phases ignore every further event; a handshake completes only
while connecting; failures are handled by handleFailure regardless of
their kind. -/
def step (st : ConnectionState) (e : EEvent) : ConnectionState × List Notification :=
  match st.phase, e with
  | Phase.closed, _ => (st, [])
  | Phase.failed, _ => (st, [])
  | Phase.connecting, EEvent.handshake_ok =>
    ({ st with phase := Phase.opened }, [Notification.conn_open st.reconnected])
  | Phase.opened, EEvent.handshake_ok => (st, [])
  | Phase.connecting, EEvent.transport_failure _ r => handleFailure st r
  | Phase.opened, EEvent.transport_failure _ r => handleFailure st r
  | Phase.connecting, EEvent.app_close => ({ st with phase := Phase.closed }, [Notification.conn_close])
  | Phase.opened, EEvent.app_close => ({ st with phase := Phase.closed }, [Notification.conn_close])

/-- Run the coordinator over a list of environment events, collecting
the emitted notifications in order. -/
def run (st : ConnectionState) : List EEvent → ConnectionState × List Notification
  | [] => (st, [])
  | e :: es =>
    ((run (step st e).1 es).1, (step st e).2 ++ (run (step st e).1 es).2)

/-- The addresses reported by the transport-error notifications of a
trace, in order. Error number n references the address of attempt n. -/
def errAddrs (ns : List Notification) : List Address :=
  ns.filterMap fun n =>
    match n with
    | Notification.transport_err a _ => some a
    | _ => none

/-- The reconnected flags reported by the transport-error
notifications of a trace, in order. -/
def errFlags (ns : List Notification) : List Bool :=
  ns.filterMap fun n =>
    match n with
    | Notification.transport_err _ b => some b
    | _ => none

/-- The reconnected flags reported by the connection-open
notifications of a trace, in order. -/
def openFlags (ns : List Notification) : List Bool :=
  ns.filterMap fun n =>
    match n with
    | Notification.conn_open b => some b
    | _ => none

/-- Checks, walking a notification trace and counting the transport
errors seen so far, that every connection-open notification reports
reconnected exactly when at least one transport error preceded it. -/
def openFlagAgrees : Nat → List Notification → Bool
  | _, [] => true
  | k, Notification.conn_open b :: rest => (b == decide (0 < k)) && openFlagAgrees k rest
  | k, Notification.transport_err _ _ :: rest => openFlagAgrees (k + 1) rest
  | k, _ :: rest => openFlagAgrees k rest

/-- A network-level transport failure with an empty application
reaction: no close, no update requested. -/
def plainFail : EEvent :=
  EEvent.transport_failure FailKind.network { close := false, update := none }

/-- Replace the kind of a failure event by network, leaving everything
else unchanged. -/
def stripAuth : EEvent → EEvent
  | EEvent.transport_failure _ r => EEvent.transport_failure FailKind.network r
  | e => e

/-- Concrete fixture: base address A, default reconnect options, no
failover list. -/
def cfgBaseOnly : ConnectionConfiguration :=
  { base_address := "A"
    reconnect := some defaultPolicy
    failover_list := []
    virtual_host := none
    user := none }

/-- Concrete fixture: base address A, default reconnect options, one
failover element and a user. -/
def cfgWithFailover : ConnectionConfiguration :=
  { base_address := "A"
    reconnect := some defaultPolicy
    failover_list := ["B"]
    virtual_host := none
    user := some "user0" }

/-- Concrete fixture: base address A, failover list B, C, default
reconnect options. -/
def cfgABC : ConnectionConfiguration :=
  { base_address := "A"
    reconnect := some defaultPolicy
    failover_list := ["B", "C"]
    virtual_host := none
    user := none }

/-- Concrete fixture: base address A, sticky override X, failover
list B, C. -/
def cfgStickyX : ConnectionConfiguration :=
  { base_address := "A"
    reconnect := some
      { initial_delay := 10
        multiplier := 2
        max_delay := 600000
        max_attempts := none
        sticky_override_address := some "X" }
    failover_list := ["B", "C"]
    virtual_host := none
    user := none }

/-- Concrete fixture: an update touching only the user field. -/
def updUserOnly : ConfigUpdate :=
  { base_address := none
    reconnect := none
    failover_list := none
    virtual_host := none
    user := some "user1" }

/-- Concrete fixture: an update setting only the sticky override
address, to X. -/
def updStickyX : ConfigUpdate :=
  { base_address := none
    reconnect := some
      { initial_delay := none
        multiplier := none
        max_delay := none
        max_attempts := none
        sticky_override_address := some (some "X") }
    failover_list := none
    virtual_host := none
    user := none }

/-! Evaluation lemmas for the trace filters. -/

theorem errAddrs_nil : errAddrs [] = [] := rfl

theorem errAddrs_open (b : Bool) (l : List Notification) :
    errAddrs (Notification.conn_open b :: l) = errAddrs l := rfl

theorem errAddrs_err (a : Address) (b : Bool) (l : List Notification) :
    errAddrs (Notification.transport_err a b :: l) = a :: errAddrs l := rfl

theorem errAddrs_cerr (l : List Notification) :
    errAddrs (Notification.conn_error :: l) = errAddrs l := rfl

theorem errAddrs_cclose (l : List Notification) :
    errAddrs (Notification.conn_close :: l) = errAddrs l := rfl

theorem errFlags_nil : errFlags [] = [] := rfl

theorem errFlags_open (b : Bool) (l : List Notification) :
    errFlags (Notification.conn_open b :: l) = errFlags l := rfl

theorem errFlags_err (a : Address) (b : Bool) (l : List Notification) :
    errFlags (Notification.transport_err a b :: l) = b :: errFlags l := rfl

theorem errFlags_cerr (l : List Notification) :
    errFlags (Notification.conn_error :: l) = errFlags l := rfl

theorem errFlags_cclose (l : List Notification) :
    errFlags (Notification.conn_close :: l) = errFlags l := rfl

theorem openFlags_nil : openFlags [] = [] := rfl

theorem openFlags_open (b : Bool) (l : List Notification) :
    openFlags (Notification.conn_open b :: l) = b :: openFlags l := rfl

theorem openFlags_err (a : Address) (b : Bool) (l : List Notification) :
    openFlags (Notification.transport_err a b :: l) = openFlags l := rfl

theorem openFlags_cerr (l : List Notification) :
    openFlags (Notification.conn_error :: l) = openFlags l := rfl

theorem openFlags_cclose (l : List Notification) :
    openFlags (Notification.conn_close :: l) = openFlags l := rfl

theorem openFlagAgrees_nil (k : Nat) : openFlagAgrees k [] = true := rfl

theorem openFlagAgrees_open (k : Nat) (b : Bool) (l : List Notification) :
    openFlagAgrees k (Notification.conn_open b :: l)
      = ((b == decide (0 < k)) && openFlagAgrees k l) := rfl

theorem openFlagAgrees_err (k : Nat) (a : Address) (b : Bool) (l : List Notification) :
    openFlagAgrees k (Notification.transport_err a b :: l) = openFlagAgrees (k + 1) l := rfl

theorem openFlagAgrees_cerr (k : Nat) (l : List Notification) :
    openFlagAgrees k (Notification.conn_error :: l) = openFlagAgrees k l := rfl

theorem openFlagAgrees_cclose (k : Nat) (l : List Notification) :
    openFlagAgrees k (Notification.conn_close :: l) = openFlagAgrees k l := rfl

/-! Evaluation lemmas for the state machine. -/

theorem step_halted (st : ConnectionState) (e : EEvent)
    (h : st.phase = Phase.closed ∨ st.phase = Phase.failed) : step st e = (st, []) := by
  obtain ⟨cfg, n, cur, po, ab, ph, ca⟩ := st
  rcases h with h | h
  · obtain rfl : ph = Phase.closed := h
    cases e <;> rfl
  · obtain rfl : ph = Phase.failed := h
    cases e <;> rfl

theorem run_halted (evs : List EEvent) (st : ConnectionState)
    (h : st.phase = Phase.closed ∨ st.phase = Phase.failed) : run st evs = (st, []) := by
  induction evs with
  | nil => rfl
  | cons e es ih =>
    show ((run (step st e).1 es).1, (step st e).2 ++ (run (step st e).1 es).2) = (st, [])
    rw [step_halted st e h]
    simp [ih]

theorem step_connecting_handshake (st : ConnectionState) (h : st.phase = Phase.connecting) :
    step st EEvent.handshake_ok
      = ({ st with phase := Phase.opened }, [Notification.conn_open st.reconnected]) := by
  obtain ⟨cfg, n, cur, po, ab, ph, ca⟩ := st
  obtain rfl : ph = Phase.connecting := h
  rfl

theorem step_opened_handshake (st : ConnectionState) (h : st.phase = Phase.opened) :
    step st EEvent.handshake_ok = (st, []) := by
  obtain ⟨cfg, n, cur, po, ab, ph, ca⟩ := st
  obtain rfl : ph = Phase.opened := h
  rfl

theorem step_appclose (st : ConnectionState)
    (h : st.phase = Phase.connecting ∨ st.phase = Phase.opened) :
    step st EEvent.app_close
      = ({ st with phase := Phase.closed }, [Notification.conn_close]) := by
  obtain ⟨cfg, n, cur, po, ab, ph, ca⟩ := st
  rcases h with h | h
  · obtain rfl : ph = Phase.connecting := h
    rfl
  · obtain rfl : ph = Phase.opened := h
    rfl

theorem step_failure (st : ConnectionState) (k : FailKind) (r : Reaction)
    (h : st.phase = Phase.connecting ∨ st.phase = Phase.opened) :
    step st (EEvent.transport_failure k r) = handleFailure st r := by
  obtain ⟨cfg, n, cur, po, ab, ph, ca⟩ := st
  rcases h with h | h
  · obtain rfl : ph = Phase.connecting := h
    rfl
  · obtain rfl : ph = Phase.opened := h
    rfl

theorem handleFailure_disabled (st : ConnectionState) (r : Reaction)
    (h : st.config.reconnect = none) :
    handleFailure st r
      = ({ st with phase := Phase.failed },
         [Notification.conn_error, Notification.conn_close]) := by
  unfold handleFailure
  rw [h]

theorem handleFailure_close (st : ConnectionState) (r : Reaction) (p : ReconnectPolicy)
    (hp : st.config.reconnect = some p) (hc : r.close = true) :
    handleFailure st r
      = ({ st with phase := Phase.closed, aborted := true },
         [Notification.transport_err st.current_address st.reconnected]) := by
  unfold handleFailure
  rw [hp]
  simp [hc]

theorem handleFailure_exhausted (st : ConnectionState) (r : Reaction) (p : ReconnectPolicy)
    (hp : st.config.reconnect = some p) (hc : r.close = false)
    (hx : retriesExhausted (applyUpdate st.config r.update) (st.attempt_count + 1) = true) :
    handleFailure st r
      = ({ st with config := applyUpdate st.config r.update, phase := Phase.failed },
         [Notification.transport_err st.current_address st.reconnected,
          Notification.conn_close]) := by
  unfold handleFailure
  rw [hp]
  simp [hc, hx]

theorem handleFailure_retry (st : ConnectionState) (r : Reaction) (p : ReconnectPolicy)
    (hp : st.config.reconnect = some p) (hc : r.close = false)
    (hx : retriesExhausted (applyUpdate st.config r.update) (st.attempt_count + 1) = false) :
    handleFailure st r
      = ({ (next_address { st with config := applyUpdate st.config r.update }).2 with
            current_address := (next_address { st with config := applyUpdate st.config r.update }).1
            attempt_count := st.attempt_count + 1
            phase := Phase.connecting },
         [Notification.transport_err st.current_address st.reconnected]) := by
  unfold handleFailure
  rw [hp]
  simp [hc, hx]

theorem next_address_pending (st : ConnectionState) (a : Address)
    (h : st.pending_override = some a) :
    next_address st = (a, { st with pending_override := none }) := by
  unfold next_address
  rw [h]

theorem next_address_sticky (st : ConnectionState) (a : Address)
    (h : st.pending_override = none) (h2 : stickyOf st.config = some a) :
    next_address st = (a, st) := by
  unfold next_address
  rw [h, h2]

theorem next_address_cycle (st : ConnectionState)
    (h : st.pending_override = none) (h2 : stickyOf st.config = none) :
    next_address st
      = ((st.config.base_address :: st.config.failover_list).getD
           ((st.failover_cursor + 1) % (st.config.failover_list.length + 1))
           st.config.base_address,
         { st with failover_cursor :=
             (st.failover_cursor + 1) % (st.config.failover_list.length + 1) }) := by
  unfold next_address
  rw [h, h2]

theorem next_address_config (st : ConnectionState) :
    (next_address st).2.config = st.config := by
  unfold next_address
  cases h : st.pending_override
  · cases h2 : stickyOf st.config <;> rfl
  · rfl

theorem next_address_pending_none (st : ConnectionState) (h : st.pending_override = none) :
    (next_address st).2.pending_override = none := by
  unfold next_address
  rw [h]
  cases h2 : stickyOf st.config
  · rfl
  · exact h

/-! Preservation lemmas for the configuration overlay. -/

theorem overlay_reconnect_isSome (cfg : ConnectionConfiguration) (u : ConfigUpdate)
    (h : cfg.reconnect.isSome = true) : (overlay cfg u).reconnect.isSome = true := by
  unfold overlay
  cases hu : u.reconnect
  · exact h
  · rfl

theorem applyUpdate_reconnect_isSome (cfg : ConnectionConfiguration) (ou : Option ConfigUpdate)
    (h : cfg.reconnect.isSome = true) : (applyUpdate cfg ou).reconnect.isSome = true := by
  cases ou with
  | none => exact h
  | some u => exact overlay_reconnect_isSome cfg u h

theorem overlay_keeps_sticky (cfg : ConnectionConfiguration) (u : ConfigUpdate)
    (hk : keepsSticky u = true) : stickyOf (overlay cfg u) = stickyOf cfg := by
  unfold keepsSticky at hk
  cases hu : u.reconnect with
  | none => simp [stickyOf, overlay, hu]
  | some pu =>
    rw [hu] at hk
    have hk2 : pu.sticky_override_address.isNone = true := hk
    have hs : pu.sticky_override_address = none := Option.isNone_iff_eq_none.mp hk2
    cases hr : cfg.reconnect with
    | none => simp [stickyOf, overlay, overlayP, hu, hr, hs, defaultPolicy]
    | some p => simp [stickyOf, overlay, overlayP, hu, hr, hs]

theorem applyUpdate_keeps_sticky (cfg : ConnectionConfiguration) (ou : Option ConfigUpdate)
    (hk : keepsStickyO ou = true) : stickyOf (applyUpdate cfg ou) = stickyOf cfg := by
  cases ou with
  | none => rfl
  | some u => exact overlay_keeps_sticky cfg u hk

theorem phase_trichotomy (ph : Phase) :
    (ph = Phase.closed ∨ ph = Phase.failed) ∨ (ph = Phase.connecting ∨ ph = Phase.opened) := by
  cases ph
  · exact Or.inr (Or.inl rfl)
  · exact Or.inr (Or.inr rfl)
  · exact Or.inl (Or.inl rfl)
  · exact Or.inl (Or.inr rfl)

/-- The address referenced by the first transport error of any run is
the address of the attempt already in flight when the run starts. -/
theorem first_err_addr : ∀ (evs : List EEvent) (st : ConnectionState) (a : Address),
    (errAddrs (run st evs).2).head? = some a → a = st.current_address := by
  intro evs
  induction evs with
  | nil =>
    intro st a h
    simp [run, errAddrs] at h
  | cons e es ih =>
    intro st a h
    have hrun : (run st (e :: es)).2 = (step st e).2 ++ (run (step st e).1 es).2 := rfl
    rw [hrun] at h
    rcases phase_trichotomy st.phase with hh | ha
    · rw [step_halted st e hh] at h
      simp [run_halted es st hh, errAddrs] at h
    · cases e with
      | handshake_ok =>
        rcases ha with hc | ho
        · rw [step_connecting_handshake st hc] at h
          simp only [List.singleton_append, errAddrs_open] at h
          exact ih { st with phase := Phase.opened } a h
        · rw [step_opened_handshake st ho] at h
          simp only [List.nil_append] at h
          exact ih st a h
      | app_close =>
        rw [step_appclose st ha] at h
        dsimp only at h
        rw [run_halted es { st with phase := Phase.closed } (Or.inl rfl)] at h
        simp only [List.singleton_append, errAddrs_cclose, errAddrs_nil, List.head?_nil] at h
        simp at h
      | transport_failure k r =>
        rw [step_failure st k r ha] at h
        cases hr : st.config.reconnect with
        | none =>
          rw [handleFailure_disabled st r hr] at h
          dsimp only at h
          rw [run_halted es { st with phase := Phase.failed } (Or.inr rfl)] at h
          simp only [List.cons_append, List.singleton_append, errAddrs_cerr,
            errAddrs_cclose, errAddrs_nil, List.head?_nil] at h
          simp [errAddrs] at h
        | some p =>
          cases hcl : r.close with
          | true =>
            rw [handleFailure_close st r p hr hcl] at h
            simp only [List.singleton_append, errAddrs_err, List.head?_cons,
              Option.some.injEq] at h
            exact h.symm
          | false =>
            cases hx : retriesExhausted (applyUpdate st.config r.update) (st.attempt_count + 1) with
            | true =>
              rw [handleFailure_exhausted st r p hr hcl hx] at h
              simp only [List.cons_append, errAddrs_err, List.head?_cons,
                Option.some.injEq] at h
              exact h.symm
            | false =>
              rw [handleFailure_retry st r p hr hcl hx] at h
              simp only [List.singleton_append, errAddrs_err, List.head?_cons,
                Option.some.injEq] at h
              exact h.symm

/-- Claim C1: for every connection configuration, however constructed
(including one carrying a sticky override address and a non-empty
failover list), the very first connection attempt targets the base
address, never the override or a failover-list element: the attempt in
flight right after the connect is issued is the base address, and the
first transport error reported on any run of the fresh connection
references the base address. -/
theorem claim_C1_first_attempt_base (cfg : ConnectionConfiguration) :
    (initState cfg).current_address = cfg.base_address ∧
    ∀ (evs : List EEvent) (a : Address),
      (errAddrs (run (initState cfg) evs).2).head? = some a → a = cfg.base_address := by
  constructor
  · rfl
  · intro evs a h
    exact first_err_addr evs (initState cfg) a h

/-- Witness for claim C1: a configuration with base A, a sticky
override X and failover element B still attempts A first. -/
theorem claim_C1_first_attempt_base_witness :
    (errAddrs (run (initState
        { base_address := "A"
          reconnect := some { initial_delay := 1, multiplier := 1, max_delay := 1,
                              max_attempts := none, sticky_override_address := some "X" }
          failover_list := ["B"]
          virtual_host := none
          user := none }) [plainFail]).2).head? = some "A" ∧ ("A" : Address) = "A" :=
  ⟨rfl, (claim_C1_first_attempt_base
      { base_address := "A"
        reconnect := some { initial_delay := 1, multiplier := 1, max_delay := 1,
                            max_attempts := none, sticky_override_address := some "X" }
        failover_list := ["B"]
        virtual_host := none
        user := none }).2 [plainFail] "A" rfl⟩

/-- Claim C5: with reconnection enabled, no override of either kind,
and an empty failover list, a failure step keeps retrying the base
address (the candidate sequence degenerates to the single repeating
base address), and the step reaches the terminal failed phase only
when the retry scheduler reports exhaustion through max_attempts. -/
theorem claim_C5_empty_failover_retries_base (st : ConnectionState) (k : FailKind)
    (p : ReconnectPolicy)
    (hph : st.phase = Phase.connecting ∨ st.phase = Phase.opened)
    (hp : st.config.reconnect = some p)
    (hs : p.sticky_override_address = none)
    (hpo : st.pending_override = none)
    (hfl : st.config.failover_list = []) :
    (retriesExhausted st.config (st.attempt_count + 1) = false →
      (step st (EEvent.transport_failure k { close := false, update := none })).1.current_address
          = st.config.base_address ∧
      (step st (EEvent.transport_failure k { close := false, update := none })).1.phase
          = Phase.connecting) ∧
    ((step st (EEvent.transport_failure k { close := false, update := none })).1.phase
        = Phase.failed →
      retriesExhausted st.config (st.attempt_count + 1) = true) := by
  have hsk : stickyOf st.config = none := by
    unfold stickyOf
    rw [hp]
    exact hs
  rw [step_failure st k { close := false, update := none } hph]
  cases hx : retriesExhausted st.config (st.attempt_count + 1) with
  | false =>
    rw [handleFailure_retry st { close := false, update := none } p hp rfl hx]
    rw [next_address_cycle { st with config := applyUpdate st.config none } hpo hsk]
    constructor
    · intro _
      constructor
      · show (st.config.base_address :: st.config.failover_list).getD
            ((st.failover_cursor + 1) % (st.config.failover_list.length + 1))
            st.config.base_address = st.config.base_address
        rw [hfl]
        simp
      · rfl
    · intro hcontr
      exact Phase.noConfusion hcontr
  | true =>
    rw [handleFailure_exhausted st { close := false, update := none } p hp rfl hx]
    constructor
    · intro hfalse
      exact Bool.noConfusion hfalse
    · intro _
      rfl

/-- Witness for claim C5 at a concrete state. -/
theorem claim_C5_empty_failover_retries_base_witness :
    ((initState cfgBaseOnly).phase = Phase.connecting ∨
      (initState cfgBaseOnly).phase = Phase.opened) ∧
    retriesExhausted cfgBaseOnly 2 = false ∧
    (step (initState cfgBaseOnly)
        (EEvent.transport_failure FailKind.network
          { close := false, update := none })).1.current_address = "A" :=
  ⟨Or.inl rfl, rfl,
   ((claim_C5_empty_failover_retries_base (initState cfgBaseOnly) FailKind.network
      defaultPolicy (Or.inl rfl) rfl rfl rfl rfl).1 rfl).1⟩

/-- Claim C6: if the application explicitly closes the connection from
inside a transport-error callback while reconnection is enabled, the
step reports only the retryable transport error, moves to the closed
phase with the aborted flag set, and the rest of the run schedules no
further attempt and emits no further notification, in particular no
clean-close notification. -/
theorem claim_C6_close_in_error_callback (st : ConnectionState) (k : FailKind)
    (ou : Option ConfigUpdate) (evs : List EEvent) (p : ReconnectPolicy)
    (hph : st.phase = Phase.connecting ∨ st.phase = Phase.opened)
    (hp : st.config.reconnect = some p) :
    (step st (EEvent.transport_failure k { close := true, update := ou })).2
        = [Notification.transport_err st.current_address st.reconnected] ∧
    (step st (EEvent.transport_failure k { close := true, update := ou })).1.phase
        = Phase.closed ∧
    (step st (EEvent.transport_failure k { close := true, update := ou })).1.aborted = true ∧
    run (step st (EEvent.transport_failure k { close := true, update := ou })).1 evs
        = ((step st (EEvent.transport_failure k { close := true, update := ou })).1, []) := by
  rw [step_failure st k { close := true, update := ou } hph,
      handleFailure_close st { close := true, update := ou } p hp rfl]
  refine ⟨rfl, rfl, rfl, ?_⟩
  exact run_halted evs { st with phase := Phase.closed, aborted := true } (Or.inl rfl)

/-- Witness for claim C6 at a concrete state and a nonempty residual
event list. -/
theorem claim_C6_close_in_error_callback_witness :
    ((initState cfgWithFailover).phase = Phase.connecting ∨
      (initState cfgWithFailover).phase = Phase.opened) ∧
    (run (step (initState cfgWithFailover)
        (EEvent.transport_failure FailKind.network { close := true, update := none })).1
        [EEvent.handshake_ok, plainFail]).2 = [] :=
  ⟨Or.inl rfl,
   by
    rw [(claim_C6_close_in_error_callback (initState cfgWithFailover) FailKind.network none
      [EEvent.handshake_ok, plainFail] defaultPolicy (Or.inl rfl) rfl).2.2.2]⟩

/-- Claim C8: a configuration update requested during the handling of
transport error N takes effect starting exactly at attempt N plus one:
the error being reported references the address that was actually
attempted (computed before the update), the update is layered onto the
configuration by the very same step, and the address of the next
attempt is computed by the sequencer from the updated configuration. -/
theorem claim_C8_update_effective_next_attempt (st : ConnectionState) (k : FailKind)
    (u : ConfigUpdate) (p : ReconnectPolicy)
    (hph : st.phase = Phase.connecting ∨ st.phase = Phase.opened)
    (hp : st.config.reconnect = some p)
    (hx : retriesExhausted (overlay st.config u) (st.attempt_count + 1) = false) :
    (step st (EEvent.transport_failure k { close := false, update := some u })).2
        = [Notification.transport_err st.current_address st.reconnected] ∧
    (step st (EEvent.transport_failure k { close := false, update := some u })).1.config
        = overlay st.config u ∧
    (step st (EEvent.transport_failure k { close := false, update := some u })).1.current_address
        = (next_address { st with config := overlay st.config u }).1 ∧
    (step st (EEvent.transport_failure k { close := false, update := some u })).1.attempt_count
        = st.attempt_count + 1 := by
  rw [step_failure st k { close := false, update := some u } hph,
      handleFailure_retry st { close := false, update := some u } p hp rfl hx]
  refine ⟨rfl, ?_, rfl, rfl⟩
  exact next_address_config { st with config := overlay st.config u }

/-- Witness for claim C8: the sticky override set during the second
error of test_reconnect_update_simple is used by the very next
attempt. -/
theorem claim_C8_update_effective_next_attempt_witness :
    ((initState cfgBaseOnly).phase = Phase.connecting ∨
      (initState cfgBaseOnly).phase = Phase.opened) ∧
    retriesExhausted (overlay cfgBaseOnly updStickyX) 2 = false ∧
    (step (initState cfgBaseOnly)
        (EEvent.transport_failure FailKind.network
          { close := false, update := some updStickyX })).1.current_address
      = (next_address
          { initState cfgBaseOnly with config := overlay cfgBaseOnly updStickyX }).1 :=
  ⟨Or.inl rfl, rfl,
   (claim_C8_update_effective_next_attempt (initState cfgBaseOnly) FailKind.network
      updStickyX defaultPolicy (Or.inl rfl) rfl rfl).2.2.1⟩

theorem step_kind_blind (st : ConnectionState) (k : FailKind) (r : Reaction) :
    step st (EEvent.transport_failure k r)
      = step st (EEvent.transport_failure FailKind.network r) := by
  obtain ⟨cfg, n, cur, po, ab, ph, ca⟩ := st
  cases ph <;> rfl

theorem run_stripAuth (evs : List EEvent) : ∀ st : ConnectionState,
    run st (evs.map stripAuth) = run st evs := by
  induction evs with
  | nil => intro st; rfl
  | cons e es ih =>
    intro st
    have hstep : step st (stripAuth e) = step st e := by
      cases e with
      | transport_failure k r => exact (step_kind_blind st k r).symm
      | handshake_ok => rfl
      | app_close => rfl
    show ((run (step st (stripAuth e)).1 (List.map stripAuth es)).1,
          (step st (stripAuth e)).2 ++ (run (step st (stripAuth e)).1 (List.map stripAuth es)).2)
        = ((run (step st e).1 es).1, (step st e).2 ++ (run (step st e).1 es).2)
    rw [hstep, ih (step st e).1]

/-- Claim C9: an authentication failure is delivered through exactly
the same transport-failure path as a network-level failure: the step
function does not depend on the failure kind, whole runs are unchanged
when authentication failures are replaced by network ones, and with
reconnection enabled an authentication failure produces a retryable
transport-error notification like any other failure. -/
theorem claim_C9_auth_failure_same_path (st : ConnectionState) (r : Reaction)
    (evs : List EEvent) :
    step st (EEvent.transport_failure FailKind.authentication r)
        = step st (EEvent.transport_failure FailKind.network r) ∧
    run st (evs.map stripAuth) = run st evs ∧
    ((st.phase = Phase.connecting ∨ st.phase = Phase.opened) →
      st.config.reconnect.isSome = true →
      (step st (EEvent.transport_failure FailKind.authentication r)).2.head?
          = some (Notification.transport_err st.current_address st.reconnected)) := by
  refine ⟨step_kind_blind st FailKind.authentication r, run_stripAuth evs st, ?_⟩
  intro hph hpsome
  obtain ⟨p, hp⟩ := Option.isSome_iff_exists.mp hpsome
  rw [step_failure st FailKind.authentication r hph]
  cases hcl : r.close with
  | true =>
    rw [handleFailure_close st r p hp hcl]
    rfl
  | false =>
    cases hx : retriesExhausted (applyUpdate st.config r.update) (st.attempt_count + 1) with
    | true =>
      rw [handleFailure_exhausted st r p hp hcl hx]
      rfl
    | false =>
      rw [handleFailure_retry st r p hp hcl hx]
      rfl

/-- Witness for claim C9 at a concrete state. -/
theorem claim_C9_auth_failure_same_path_witness :
    ((initState cfgBaseOnly).phase = Phase.connecting ∨
      (initState cfgBaseOnly).phase = Phase.opened) ∧
    (initState cfgBaseOnly).config.reconnect.isSome = true ∧
    (step (initState cfgBaseOnly)
        (EEvent.transport_failure FailKind.authentication
          { close := false, update := none })).2.head?
      = some (Notification.transport_err "A" false) :=
  ⟨Or.inl rfl, rfl,
   (claim_C9_auth_failure_same_path (initState cfgBaseOnly)
      { close := false, update := none } []).2.2 (Or.inl rfl) rfl⟩

theorem retriesExhausted_congr (c1 c2 : ConnectionConfiguration) (n : Nat)
    (hr : c1.reconnect = c2.reconnect) : retriesExhausted c1 n = retriesExhausted c2 n := by
  unfold retriesExhausted
  rw [hr]

theorem next_address_congr (st : ConnectionState) (c1 c2 : ConnectionConfiguration)
    (hb : c1.base_address = c2.base_address) (hf : c1.failover_list = c2.failover_list)
    (hr : c1.reconnect = c2.reconnect) :
    (next_address { st with config := c1 }).1 = (next_address { st with config := c2 }).1 ∧
    (next_address { st with config := c1 }).2.failover_cursor
        = (next_address { st with config := c2 }).2.failover_cursor := by
  have hst : stickyOf c1 = stickyOf c2 := by
    unfold stickyOf
    rw [hr]
  obtain ⟨cfg0, n, cur, po, ab, ph, ca⟩ := st
  cases po with
  | some a => exact ⟨rfl, rfl⟩
  | none =>
    cases hs : stickyOf c2 with
    | some a =>
      rw [next_address_sticky ⟨c1, n, cur, none, ab, ph, ca⟩ a rfl (hst.trans hs),
          next_address_sticky ⟨c2, n, cur, none, ab, ph, ca⟩ a rfl hs]
      exact ⟨rfl, rfl⟩
    | none =>
      rw [next_address_cycle ⟨c1, n, cur, none, ab, ph, ca⟩ rfl (hst.trans hs),
          next_address_cycle ⟨c2, n, cur, none, ab, ph, ca⟩ rfl hs]
      constructor
      · show (c1.base_address :: c1.failover_list).getD
            ((cur + 1) % (c1.failover_list.length + 1)) c1.base_address
          = (c2.base_address :: c2.failover_list).getD
            ((cur + 1) % (c2.failover_list.length + 1)) c2.base_address
        rw [hb, hf]
      · show (cur + 1) % (c1.failover_list.length + 1)
          = (cur + 1) % (c2.failover_list.length + 1)
        rw [hf]

/-- Claim C7: configuration overlay is compositional per field: an
update touching only unrelated settings (here: only the user field
set) changes neither the base address, nor the failover list, nor the
reconnect policy, and applying it during a failure callback changes
neither the address chosen for the next attempt nor the failover
cursor; conversely an update leaving the unrelated settings unset
(such as a reconnect-specific one) preserves the user and virtual
host. -/
theorem claim_C7_config_compositional (cfg : ConnectionConfiguration) (u uR : ConfigUpdate)
    (st : ConnectionState) (k : FailKind)
    (hb : u.base_address = none) (hrc : u.reconnect = none) (hfl : u.failover_list = none)
    (hu : uR.user = none) (hv : uR.virtual_host = none)
    (hph : st.phase = Phase.connecting ∨ st.phase = Phase.opened) :
    (overlay cfg u).base_address = cfg.base_address ∧
    (overlay cfg u).failover_list = cfg.failover_list ∧
    (overlay cfg u).reconnect = cfg.reconnect ∧
    (step st (EEvent.transport_failure k { close := false, update := some u })).1.current_address
        = (step st (EEvent.transport_failure k { close := false, update := none })).1.current_address ∧
    (step st (EEvent.transport_failure k { close := false, update := some u })).1.failover_cursor
        = (step st (EEvent.transport_failure k { close := false, update := none })).1.failover_cursor ∧
    (overlay cfg uR).user = cfg.user ∧
    (overlay cfg uR).virtual_host = cfg.virtual_host := by
  have hb1 : (applyUpdate st.config (some u)).base_address
      = (applyUpdate st.config none).base_address := by
    simp [applyUpdate, overlay, hb]
  have hf1 : (applyUpdate st.config (some u)).failover_list
      = (applyUpdate st.config none).failover_list := by
    simp [applyUpdate, overlay, hfl]
  have hr1 : (applyUpdate st.config (some u)).reconnect
      = (applyUpdate st.config none).reconnect := by
    simp [applyUpdate, overlay, hrc]
  have hstep :
      (step st (EEvent.transport_failure k { close := false, update := some u })).1.current_address
          = (step st (EEvent.transport_failure k { close := false, update := none })).1.current_address ∧
      (step st (EEvent.transport_failure k { close := false, update := some u })).1.failover_cursor
          = (step st (EEvent.transport_failure k { close := false, update := none })).1.failover_cursor := by
    rw [step_failure st k { close := false, update := some u } hph,
        step_failure st k { close := false, update := none } hph]
    cases hr : st.config.reconnect with
    | none =>
      rw [handleFailure_disabled st { close := false, update := some u } hr,
          handleFailure_disabled st { close := false, update := none } hr]
      exact ⟨rfl, rfl⟩
    | some p =>
      have hx2 : retriesExhausted (applyUpdate st.config (some u)) (st.attempt_count + 1)
          = retriesExhausted (applyUpdate st.config none) (st.attempt_count + 1) :=
        retriesExhausted_congr _ _ _ hr1
      cases hx : retriesExhausted (applyUpdate st.config none) (st.attempt_count + 1) with
      | true =>
        rw [handleFailure_exhausted st { close := false, update := some u } p hr rfl (hx2.trans hx),
            handleFailure_exhausted st { close := false, update := none } p hr rfl hx]
        exact ⟨rfl, rfl⟩
      | false =>
        rw [handleFailure_retry st { close := false, update := some u } p hr rfl (hx2.trans hx),
            handleFailure_retry st { close := false, update := none } p hr rfl hx]
        exact next_address_congr st (applyUpdate st.config (some u)) (applyUpdate st.config none)
          hb1 hf1 hr1
  exact ⟨by simp [overlay, hb], by simp [overlay, hfl], by simp [overlay, hrc],
         hstep.1, hstep.2, by simp [overlay, hu], by simp [overlay, hv]⟩

/-- Witness for claim C7 at a concrete state: a user-only update does
not change the next attempt, a sticky-only update keeps the user. -/
theorem claim_C7_config_compositional_witness :
    updUserOnly.base_address = none ∧
    updStickyX.user = none ∧
    (step (initState cfgWithFailover)
        (EEvent.transport_failure FailKind.network
          { close := false, update := some updUserOnly })).1.current_address
      = (step (initState cfgWithFailover)
          (EEvent.transport_failure FailKind.network
            { close := false, update := none })).1.current_address :=
  ⟨rfl, rfl,
   (claim_C7_config_compositional cfgWithFailover updUserOnly updStickyX
      (initState cfgWithFailover) FailKind.network rfl rfl rfl rfl rfl
      (Or.inl rfl)).2.2.2.1⟩

/-- In a run started from a state whose configuration carries sticky
override o, whose pending override is clear, and whose attempt in
flight already targets o, every transport error references o, provided
no event replaces or clears the override. -/
theorem sticky_run_all (o : Address) :
    ∀ (evs : List EEvent) (st : ConnectionState),
      stickyOf st.config = some o → st.pending_override = none →
      st.current_address = o → (∀ e ∈ evs, eventKeepsSticky e = true) →
      (errAddrs (run st evs).2).all (fun a => a == o) = true := by
  intro evs
  induction evs with
  | nil =>
    intro st _ _ _ _
    rfl
  | cons e es ih =>
    intro st hs hpo hca hk
    have hke : eventKeepsSticky e = true := hk e (List.mem_cons_self e es)
    have hkes : ∀ e2 ∈ es, eventKeepsSticky e2 = true :=
      fun e2 h2 => hk e2 (List.mem_cons_of_mem e h2)
    have hrun : (run st (e :: es)).2 = (step st e).2 ++ (run (step st e).1 es).2 := rfl
    rw [hrun]
    rcases phase_trichotomy st.phase with hh | ha
    · rw [step_halted st e hh]
      simp [run_halted es st hh, errAddrs]
    · cases e with
      | handshake_ok =>
        rcases ha with hc | ho
        · rw [step_connecting_handshake st hc]
          simp only [List.singleton_append, errAddrs_open]
          exact ih { st with phase := Phase.opened } hs hpo hca hkes
        · rw [step_opened_handshake st ho]
          simp only [List.nil_append]
          exact ih st hs hpo hca hkes
      | app_close =>
        rw [step_appclose st ha]
        dsimp only
        rw [run_halted es { st with phase := Phase.closed } (Or.inl rfl)]
        simp [errAddrs]
      | transport_failure k r =>
        rw [step_failure st k r ha]
        have hex : ∃ p, st.config.reconnect = some p ∧ p.sticky_override_address = some o := by
          unfold stickyOf at hs
          cases hr : st.config.reconnect with
          | none =>
            rw [hr] at hs
            exact absurd (hs : (none : Option Address) = some o) (by simp)
          | some p =>
            rw [hr] at hs
            exact ⟨p, rfl, hs⟩
        obtain ⟨p, hpp, hps⟩ := hex
        cases hcl : r.close with
        | true =>
          rw [handleFailure_close st r p hpp hcl]
          dsimp only
          rw [run_halted es { st with phase := Phase.closed, aborted := true } (Or.inl rfl)]
          dsimp only
          rw [hca]
          simp [errAddrs]
        | false =>
          cases hx : retriesExhausted (applyUpdate st.config r.update) (st.attempt_count + 1) with
          | true =>
            rw [handleFailure_exhausted st r p hpp hcl hx]
            dsimp only
            rw [run_halted es
              { st with config := applyUpdate st.config r.update, phase := Phase.failed }
              (Or.inr rfl)]
            dsimp only
            rw [hca]
            simp [errAddrs]
          | false =>
            rw [handleFailure_retry st r p hpp hcl hx]
            have hs2 : stickyOf (applyUpdate st.config r.update) = some o := by
              rw [applyUpdate_keeps_sticky st.config r.update hke]
              exact hs
            rw [next_address_sticky { st with config := applyUpdate st.config r.update } o hpo hs2]
            simp only [List.singleton_append, errAddrs_err, List.all_cons]
            rw [hca]
            simp only [beq_self_eq_true, Bool.true_and]
            exact ih _ hs2 hpo rfl hkes

/-- Every transport error after the first one of a run started with a
sticky override in place references the override address. -/
theorem sticky_run_tail (o : Address) :
    ∀ (evs : List EEvent) (st : ConnectionState),
      stickyOf st.config = some o → st.pending_override = none →
      (∀ e ∈ evs, eventKeepsSticky e = true) →
      ((errAddrs (run st evs).2).tail).all (fun a => a == o) = true := by
  intro evs
  induction evs with
  | nil =>
    intro st _ _ _
    rfl
  | cons e es ih =>
    intro st hs hpo hk
    have hke : eventKeepsSticky e = true := hk e (List.mem_cons_self e es)
    have hkes : ∀ e2 ∈ es, eventKeepsSticky e2 = true :=
      fun e2 h2 => hk e2 (List.mem_cons_of_mem e h2)
    have hrun : (run st (e :: es)).2 = (step st e).2 ++ (run (step st e).1 es).2 := rfl
    rw [hrun]
    rcases phase_trichotomy st.phase with hh | ha
    · rw [step_halted st e hh]
      simp [run_halted es st hh, errAddrs]
    · cases e with
      | handshake_ok =>
        rcases ha with hc | ho
        · rw [step_connecting_handshake st hc]
          simp only [List.singleton_append, errAddrs_open]
          exact ih { st with phase := Phase.opened } hs hpo hkes
        · rw [step_opened_handshake st ho]
          simp only [List.nil_append]
          exact ih st hs hpo hkes
      | app_close =>
        rw [step_appclose st ha]
        dsimp only
        rw [run_halted es { st with phase := Phase.closed } (Or.inl rfl)]
        simp [errAddrs]
      | transport_failure k r =>
        rw [step_failure st k r ha]
        have hex : ∃ p, st.config.reconnect = some p ∧ p.sticky_override_address = some o := by
          unfold stickyOf at hs
          cases hr : st.config.reconnect with
          | none =>
            rw [hr] at hs
            exact absurd (hs : (none : Option Address) = some o) (by simp)
          | some p =>
            rw [hr] at hs
            exact ⟨p, rfl, hs⟩
        obtain ⟨p, hpp, hps⟩ := hex
        cases hcl : r.close with
        | true =>
          rw [handleFailure_close st r p hpp hcl]
          dsimp only
          rw [run_halted es { st with phase := Phase.closed, aborted := true } (Or.inl rfl)]
          simp [errAddrs]
        | false =>
          cases hx : retriesExhausted (applyUpdate st.config r.update) (st.attempt_count + 1) with
          | true =>
            rw [handleFailure_exhausted st r p hpp hcl hx]
            dsimp only
            rw [run_halted es
              { st with config := applyUpdate st.config r.update, phase := Phase.failed }
              (Or.inr rfl)]
            simp [errAddrs]
          | false =>
            rw [handleFailure_retry st r p hpp hcl hx]
            have hs2 : stickyOf (applyUpdate st.config r.update) = some o := by
              rw [applyUpdate_keeps_sticky st.config r.update hke]
              exact hs
            rw [next_address_sticky { st with config := applyUpdate st.config r.update } o hpo hs2]
            simp only [List.singleton_append, errAddrs_err, List.tail_cons]
            exact sticky_run_all o es _ hs2 hpo rfl hkes

/-- Claim C2: once a sticky override address is in place (set
initially or during a failure callback), every subsequently started
attempt targets it, regardless of the failover list contents, until
the override is cleared or replaced: in any run whose events leave the
sticky override untouched, every transport error beyond the first
(which reports the attempt already in flight) references the override
address. -/
theorem claim_C2_sticky_override_priority (st : ConnectionState) (o : Address)
    (evs : List EEvent)
    (hs : stickyOf st.config = some o) (hpo : st.pending_override = none)
    (hk : ∀ e ∈ evs, eventKeepsSticky e = true) :
    ((errAddrs (run st evs).2).tail).all (fun a => a == o) = true :=
  sticky_run_tail o evs st hs hpo hk

/-- Witness for claim C2: base A, sticky override X, failover list
B, C; after the first error every error references X. -/
theorem claim_C2_sticky_override_priority_witness :
    stickyOf cfgStickyX = some "X" ∧
    (initState cfgStickyX).pending_override = none ∧
    (∀ e ∈ [plainFail, plainFail, plainFail], eventKeepsSticky e = true) ∧
    ((errAddrs (run (initState cfgStickyX) [plainFail, plainFail, plainFail]).2).tail).all
        (fun a => a == "X") = true :=
  ⟨rfl, rfl, by decide,
   claim_C2_sticky_override_priority (initState cfgStickyX) "X"
     [plainFail, plainFail, plainFail] rfl rfl (by decide)⟩

theorem retriesExhausted_no_max (cfg : ConnectionConfiguration) (p : ReconnectPolicy) (n : Nat)
    (hp : cfg.reconnect = some p) (hm : p.max_attempts = none) :
    retriesExhausted cfg n = false := by
  simp [retriesExhausted, hp, hm]

theorem applyUpdate_none (cfg : ConnectionConfiguration) : applyUpdate cfg none = cfg := rfl

theorem getD_map_range (f : Nat → Address) (n i : Nat) (d : Address) (h : i < n) :
    ((List.range n).map f).getD i d = f i := by
  rw [List.getD_eq_getElem?_getD, List.getElem?_map, List.getElem?_range h]
  rfl

/-- In a run of plain failures from a state with a policy, no override
of either kind and no attempt cap, the reported addresses follow the
cyclic candidate sequence from the current cursor position. -/
theorem cycle_run_addrs (p : ReconnectPolicy)
    (hsp : p.sticky_override_address = none) (hm : p.max_attempts = none) :
    ∀ (n : Nat) (st : ConnectionState),
      st.config.reconnect = some p → st.pending_override = none →
      (st.phase = Phase.connecting ∨ st.phase = Phase.opened) →
      st.current_address
        = (st.config.base_address :: st.config.failover_list).getD
            (st.failover_cursor % (st.config.failover_list.length + 1))
            st.config.base_address →
      errAddrs (run st (List.replicate n plainFail)).2
        = (List.range n).map (fun i =>
            (st.config.base_address :: st.config.failover_list).getD
              ((st.failover_cursor + i) % (st.config.failover_list.length + 1))
              st.config.base_address) := by
  intro n
  induction n with
  | zero =>
    intro st _ _ _ _
    rfl
  | succ m ih =>
    intro st hp hpo hph hca
    have hsk : stickyOf st.config = none := by
      unfold stickyOf
      rw [hp]
      exact hsp
    have hx : retriesExhausted (applyUpdate st.config none) (st.attempt_count + 1) = false :=
      retriesExhausted_no_max st.config p (st.attempt_count + 1) hp hm
    rw [List.replicate_succ]
    have hrun : (run st (plainFail :: List.replicate m plainFail)).2
        = (step st plainFail).2 ++ (run (step st plainFail).1 (List.replicate m plainFail)).2 := rfl
    rw [hrun]
    have hsp2 : step st plainFail = handleFailure st { close := false, update := none } :=
      step_failure st FailKind.network { close := false, update := none } hph
    rw [hsp2]
    rw [handleFailure_retry st { close := false, update := none } p hp rfl hx]
    rw [next_address_cycle { st with config := applyUpdate st.config none } hpo hsk]
    simp only [applyUpdate_none, List.singleton_append, errAddrs_err]
    rw [ih { config := st.config
             attempt_count := st.attempt_count + 1
             failover_cursor := (st.failover_cursor + 1) % (st.config.failover_list.length + 1)
             pending_override := st.pending_override
             aborted := st.aborted
             phase := Phase.connecting
             current_address := (st.config.base_address :: st.config.failover_list).getD
               ((st.failover_cursor + 1) % (st.config.failover_list.length + 1))
               st.config.base_address }
          hp hpo (Or.inl rfl)
          (by
            show (st.config.base_address :: st.config.failover_list).getD
                ((st.failover_cursor + 1) % (st.config.failover_list.length + 1))
                st.config.base_address
              = (st.config.base_address :: st.config.failover_list).getD
                (((st.failover_cursor + 1) % (st.config.failover_list.length + 1))
                  % (st.config.failover_list.length + 1))
                st.config.base_address
            rw [Nat.mod_mod_of_dvd _ dvd_rfl])]
    dsimp only
    rw [List.range_succ_eq_map, List.map_cons, List.map_map]
    congr 1
    · refine congrArg (fun f => List.map f (List.range m)) ?_
      funext i
      show (st.config.base_address :: st.config.failover_list).getD
          (((st.failover_cursor + 1) % (st.config.failover_list.length + 1) + i)
            % (st.config.failover_list.length + 1))
          st.config.base_address
        = (st.config.base_address :: st.config.failover_list).getD
          ((st.failover_cursor + Nat.succ i) % (st.config.failover_list.length + 1))
          st.config.base_address
      rw [Nat.mod_add_mod,
        (by omega : st.failover_cursor + 1 + i = st.failover_cursor + Nat.succ i)]

/-- Claim C4: with reconnection enabled, no override, and a non-empty
failover list of size k, the attempted addresses cycle through the
base address followed by the failover list with period k plus one:
error number i (0-indexed, reporting attempt i+1) references element
i mod (k+1) of the candidate sequence base :: failover, and the
reported address sequence is periodic with period k+1. -/
theorem claim_C4_failover_round_robin (cfg : ConnectionConfiguration) (p : ReconnectPolicy)
    (n : Nat)
    (hp : cfg.reconnect = some p) (hsp : p.sticky_override_address = none)
    (hm : p.max_attempts = none) (_hne : cfg.failover_list ≠ []) :
    errAddrs (run (initState cfg) (List.replicate n plainFail)).2
      = (List.range n).map (fun i =>
          (cfg.base_address :: cfg.failover_list).getD
            (i % (cfg.failover_list.length + 1)) cfg.base_address) ∧
    ∀ i : Nat, i + (cfg.failover_list.length + 1) < n →
      (errAddrs (run (initState cfg) (List.replicate n plainFail)).2).getD
          (i + (cfg.failover_list.length + 1)) cfg.base_address
        = (errAddrs (run (initState cfg) (List.replicate n plainFail)).2).getD
          i cfg.base_address := by
  have hca : (initState cfg).current_address
      = ((initState cfg).config.base_address :: (initState cfg).config.failover_list).getD
          ((initState cfg).failover_cursor % ((initState cfg).config.failover_list.length + 1))
          (initState cfg).config.base_address := by
    show cfg.base_address
        = (cfg.base_address :: cfg.failover_list).getD
            (0 % (cfg.failover_list.length + 1)) cfg.base_address
    rw [Nat.zero_mod]
    rfl
  have hmain := cycle_run_addrs p hsp hm n (initState cfg) hp rfl (Or.inl rfl) hca
  have hfun : (fun i => ((initState cfg).config.base_address
          :: (initState cfg).config.failover_list).getD
          (((initState cfg).failover_cursor + i)
            % ((initState cfg).config.failover_list.length + 1))
          (initState cfg).config.base_address)
      = (fun i : Nat => (cfg.base_address :: cfg.failover_list).getD
          (i % (cfg.failover_list.length + 1)) cfg.base_address) := by
    funext i
    show (cfg.base_address :: cfg.failover_list).getD
        ((0 + i) % (cfg.failover_list.length + 1)) cfg.base_address
      = (cfg.base_address :: cfg.failover_list).getD
        (i % (cfg.failover_list.length + 1)) cfg.base_address
    rw [Nat.zero_add]
  rw [hfun] at hmain
  refine ⟨hmain, ?_⟩
  intro i hlt
  have hi : i < n := by omega
  rw [hmain, getD_map_range _ n _ _ hlt, getD_map_range _ n _ _ hi]
  rw [Nat.add_mod_right]

/-- Witness for claim C4: base A with failover B, C yields the attempt
sequence A, B, C, A, B, C. -/
theorem claim_C4_failover_round_robin_witness :
    cfgABC.reconnect = some defaultPolicy ∧
    defaultPolicy.sticky_override_address = none ∧
    defaultPolicy.max_attempts = none ∧
    cfgABC.failover_list ≠ [] ∧
    errAddrs (run (initState cfgABC) (List.replicate 6 plainFail)).2
      = ["A", "B", "C", "A", "B", "C"] :=
  ⟨rfl, rfl, rfl, by decide,
   ((claim_C4_failover_round_robin cfgABC defaultPolicy 6 rfl rfl rfl (by decide)).1).trans
     (by decide)⟩

theorem getD_cons_decide (b : Bool) (l : List Bool) (c i : Nat)
    (hb : b = decide (1 < c))
    (hl : ∀ j, j < l.length → l.getD j false = decide (1 < c + 1 + j))
    (hi : i < l.length + 1) :
    (b :: l).getD i false = decide (1 < c + i) := by
  cases i with
  | zero =>
    show b = decide (1 < c + 0)
    rw [Nat.add_zero]
    exact hb
  | succ j =>
    rw [List.getD_cons_succ, hl j (by omega)]
    exact decide_eq_decide.mpr (by omega)

/-- In any run from a state with reconnection enabled, the i-th
reported transport-error flag equals whether the attempt count at
that error exceeds one. -/
theorem errFlags_attempt_counts :
    ∀ (evs : List EEvent) (st : ConnectionState),
      st.config.reconnect.isSome = true →
      ∀ i : Nat, i < (errFlags (run st evs).2).length →
        (errFlags (run st evs).2).getD i false = decide (1 < st.attempt_count + i) := by
  intro evs
  induction evs with
  | nil =>
    intro st _ i hi
    simp [run, errFlags] at hi
  | cons e es ih =>
    intro st hp i hi
    have hrun : (run st (e :: es)).2 = (step st e).2 ++ (run (step st e).1 es).2 := rfl
    rw [hrun] at hi ⊢
    rcases phase_trichotomy st.phase with hh | ha
    · rw [step_halted st e hh] at hi ⊢
      simp only [run_halted es st hh] at hi ⊢
      simp [errFlags] at hi
    · cases e with
      | handshake_ok =>
        rcases ha with hc | ho
        · rw [step_connecting_handshake st hc] at hi ⊢
          simp only [List.singleton_append, errFlags_open] at hi ⊢
          exact ih { st with phase := Phase.opened } hp i hi
        · rw [step_opened_handshake st ho] at hi ⊢
          simp only [List.nil_append] at hi ⊢
          exact ih st hp i hi
      | app_close =>
        rw [step_appclose st ha] at hi ⊢
        dsimp only at hi ⊢
        rw [run_halted es { st with phase := Phase.closed } (Or.inl rfl)] at hi ⊢
        simp [errFlags] at hi
      | transport_failure k r =>
        rw [step_failure st k r ha] at hi ⊢
        obtain ⟨p, hpp⟩ := Option.isSome_iff_exists.mp hp
        cases hcl : r.close with
        | true =>
          rw [handleFailure_close st r p hpp hcl] at hi ⊢
          dsimp only at hi ⊢
          rw [run_halted es { st with phase := Phase.closed, aborted := true } (Or.inl rfl)]
            at hi ⊢
          simp only [List.singleton_append, List.append_nil, errFlags_err, errFlags_nil,
            List.length_cons, List.length_nil] at hi ⊢
          have hi0 : i = 0 := by omega
          subst hi0
          rw [Nat.add_zero]
          rfl
        | false =>
          cases hx : retriesExhausted (applyUpdate st.config r.update) (st.attempt_count + 1) with
          | true =>
            rw [handleFailure_exhausted st r p hpp hcl hx] at hi ⊢
            dsimp only at hi ⊢
            rw [run_halted es
              { st with config := applyUpdate st.config r.update, phase := Phase.failed }
              (Or.inr rfl)] at hi ⊢
            simp only [List.cons_append, List.singleton_append, List.append_nil, errFlags_err,
              errFlags_cclose, errFlags_nil, List.length_cons, List.length_nil] at hi ⊢
            have hi0 : i = 0 := by omega
            subst hi0
            rw [Nat.add_zero]
            rfl
          | false =>
            rw [handleFailure_retry st r p hpp hcl hx] at hi ⊢
            simp only [List.singleton_append, errFlags_err, List.length_cons] at hi ⊢
            refine getD_cons_decide st.reconnected _ st.attempt_count i rfl ?_ hi
            intro j hj
            exact ih _
              (by
                show ((next_address
                    { st with config := applyUpdate st.config r.update }).2.config).reconnect.isSome
                    = true
                rw [next_address_config { st with config := applyUpdate st.config r.update }]
                exact applyUpdate_reconnect_isSome st.config r.update hp)
              j hj

/-- Claim C10 (implicit): for a connection with reconnection enabled,
the reconnected predicate observed in the transport-error callbacks is
false for exactly the first transport-error notification of the
connection and true for every subsequent one: the connection counts as
reconnected as soon as a second attempt was started, not only after a
successful re-open. -/
theorem claim_C10_reconnected_during_errors (cfg : ConnectionConfiguration)
    (evs : List EEvent) (hp : cfg.reconnect.isSome = true) :
    (∀ _h0 : 0 < (errFlags (run (initState cfg) evs).2).length,
      (errFlags (run (initState cfg) evs).2).getD 0 false = false) ∧
    (∀ i : Nat, 0 < i → i < (errFlags (run (initState cfg) evs).2).length →
      (errFlags (run (initState cfg) evs).2).getD i false = true) := by
  constructor
  · intro h0
    rw [errFlags_attempt_counts evs (initState cfg) hp 0 h0]
    rfl
  · intro i hi hlen
    rw [errFlags_attempt_counts evs (initState cfg) hp i hlen]
    show decide (1 < 1 + i) = true
    exact decide_eq_true (by omega)

/-- Witness for claim C10: two consecutive failures on a fresh
connection report reconnected false, then true. -/
theorem claim_C10_reconnected_during_errors_witness :
    cfgBaseOnly.reconnect.isSome = true ∧ (0 : Nat) < 1 ∧
    1 < (errFlags (run (initState cfgBaseOnly) [plainFail, plainFail]).2).length ∧
    (errFlags (run (initState cfgBaseOnly) [plainFail, plainFail]).2).getD 1 false = true :=
  ⟨rfl, by decide, by decide,
   (claim_C10_reconnected_during_errors cfgBaseOnly [plainFail, plainFail] rfl).2 1
     (by decide) (by decide)⟩

theorem all_id_getD (l : List Bool) (h : l.all (fun b => b) = true) :
    ∀ j, j < l.length → l.getD j false = true := by
  induction l with
  | nil =>
    intro j hj
    simp at hj
  | cons b t ih =>
    intro j hj
    rw [List.all_cons, Bool.and_eq_true] at h
    cases j with
    | zero => exact h.1
    | succ j2 =>
      rw [List.getD_cons_succ]
      exact ih h.2 j2 (by simp only [List.length_cons] at hj; omega)

/-- In any run, every connection-open notification reports reconnected
exactly when at least one transport error preceded it in the run,
offset by the state the run starts from. -/
theorem open_flags_agree :
    ∀ (evs : List EEvent) (st : ConnectionState), 1 ≤ st.attempt_count →
      openFlagAgrees (st.attempt_count - 1) (run st evs).2 = true := by
  intro evs
  induction evs with
  | nil =>
    intro st _
    rfl
  | cons e es ih =>
    intro st hc
    rcases phase_trichotomy st.phase with hh | ha
    · rw [run_halted (e :: es) st hh]
      rfl
    · have hrun : (run st (e :: es)).2 = (step st e).2 ++ (run (step st e).1 es).2 := rfl
      rw [hrun]
      cases e with
      | handshake_ok =>
        rcases ha with hph | hph
        · rw [step_connecting_handshake st hph]
          simp only [List.singleton_append, openFlagAgrees_open, Bool.and_eq_true]
          constructor
          · exact beq_iff_eq.mpr (decide_eq_decide.mpr (by omega))
          · exact ih { st with phase := Phase.opened } hc
        · rw [step_opened_handshake st hph]
          simp only [List.nil_append]
          exact ih st hc
      | app_close =>
        rw [step_appclose st ha]
        dsimp only
        rw [run_halted es { st with phase := Phase.closed } (Or.inl rfl)]
        rfl
      | transport_failure k r =>
        rw [step_failure st k r ha]
        cases hr : st.config.reconnect with
        | none =>
          rw [handleFailure_disabled st r hr]
          dsimp only
          rw [run_halted es { st with phase := Phase.failed } (Or.inr rfl)]
          rfl
        | some p =>
          cases hcl : r.close with
          | true =>
            rw [handleFailure_close st r p hr hcl]
            dsimp only
            rw [run_halted es { st with phase := Phase.closed, aborted := true } (Or.inl rfl)]
            rfl
          | false =>
            cases hx : retriesExhausted (applyUpdate st.config r.update)
                (st.attempt_count + 1) with
            | true =>
              rw [handleFailure_exhausted st r p hr hcl hx]
              dsimp only
              rw [run_halted es
                { st with config := applyUpdate st.config r.update, phase := Phase.failed }
                (Or.inr rfl)]
              rfl
            | false =>
              rw [handleFailure_retry st r p hr hcl hx]
              simp only [List.singleton_append, openFlagAgrees_err]
              rw [(by omega : st.attempt_count - 1 + 1 = st.attempt_count)]
              exact ih
                { (next_address { st with config := applyUpdate st.config r.update }).2 with
                  current_address :=
                    (next_address { st with config := applyUpdate st.config r.update }).1
                  attempt_count := st.attempt_count + 1
                  phase := Phase.connecting }
                (Nat.le_add_left 1 st.attempt_count)

/-- From an opened phase, or once a second attempt has started, every
future connection-open notification reports reconnected true. -/
theorem open_flags_all_true :
    ∀ (evs : List EEvent) (st : ConnectionState),
      ((st.phase = Phase.opened ∧ 1 ≤ st.attempt_count) ∨ 2 ≤ st.attempt_count) →
      (openFlags (run st evs).2).all (fun b => b) = true := by
  intro evs
  induction evs with
  | nil =>
    intro st _
    rfl
  | cons e es ih =>
    intro st hH
    have hc1 : 1 ≤ st.attempt_count := by
      rcases hH with ⟨_, h⟩ | h <;> omega
    rcases phase_trichotomy st.phase with hh | ha
    · rw [run_halted (e :: es) st hh]
      rfl
    · have hrun : (run st (e :: es)).2 = (step st e).2 ++ (run (step st e).1 es).2 := rfl
      rw [hrun]
      cases e with
      | handshake_ok =>
        rcases ha with hph | hph
        · have h2 : 2 ≤ st.attempt_count := by
            rcases hH with ⟨hop, _⟩ | h
            · rw [hph] at hop
              exact absurd hop (by simp)
            · exact h
          rw [step_connecting_handshake st hph]
          simp only [List.singleton_append, openFlags_open, List.all_cons, Bool.and_eq_true]
          constructor
          · show ConnectionState.reconnected st = true
            exact decide_eq_true (by omega)
          · exact ih { st with phase := Phase.opened } (Or.inl ⟨rfl, hc1⟩)
        · rw [step_opened_handshake st hph]
          simp only [List.nil_append]
          exact ih st hH
      | app_close =>
        rw [step_appclose st ha]
        dsimp only
        rw [run_halted es { st with phase := Phase.closed } (Or.inl rfl)]
        rfl
      | transport_failure k r =>
        rw [step_failure st k r ha]
        cases hr : st.config.reconnect with
        | none =>
          rw [handleFailure_disabled st r hr]
          dsimp only
          rw [run_halted es { st with phase := Phase.failed } (Or.inr rfl)]
          rfl
        | some p =>
          cases hcl : r.close with
          | true =>
            rw [handleFailure_close st r p hr hcl]
            dsimp only
            rw [run_halted es { st with phase := Phase.closed, aborted := true } (Or.inl rfl)]
            rfl
          | false =>
            cases hx : retriesExhausted (applyUpdate st.config r.update)
                (st.attempt_count + 1) with
            | true =>
              rw [handleFailure_exhausted st r p hr hcl hx]
              dsimp only
              rw [run_halted es
                { st with config := applyUpdate st.config r.update, phase := Phase.failed }
                (Or.inr rfl)]
              rfl
            | false =>
              rw [handleFailure_retry st r p hr hcl hx]
              simp only [List.singleton_append, openFlags_err]
              exact ih
                { (next_address { st with config := applyUpdate st.config r.update }).2 with
                  current_address :=
                    (next_address { st with config := applyUpdate st.config r.update }).1
                  attempt_count := st.attempt_count + 1
                  phase := Phase.connecting }
                (Or.inr (Nat.succ_le_succ hc1))

/-- In any run, every connection-open notification after the first one
reports reconnected true. -/
theorem later_open_flags_true :
    ∀ (evs : List EEvent) (st : ConnectionState), 1 ≤ st.attempt_count →
      ∀ i : Nat, 0 < i → i < (openFlags (run st evs).2).length →
        (openFlags (run st evs).2).getD i false = true := by
  intro evs
  induction evs with
  | nil =>
    intro st _ i _ hlen
    simp [run, openFlags] at hlen
  | cons e es ih =>
    intro st hc i hi hlen
    rcases phase_trichotomy st.phase with hh | ha
    · rw [run_halted (e :: es) st hh] at hlen ⊢
      simp [openFlags] at hlen
    · have hrun : (run st (e :: es)).2 = (step st e).2 ++ (run (step st e).1 es).2 := rfl
      rw [hrun] at hlen ⊢
      cases e with
      | handshake_ok =>
        rcases ha with hph | hph
        · rw [step_connecting_handshake st hph] at hlen ⊢
          simp only [List.singleton_append, openFlags_open, List.length_cons] at hlen ⊢
          cases i with
          | zero => exact absurd hi (by omega)
          | succ j =>
            rw [List.getD_cons_succ]
            refine all_id_getD _ ?_ j (by omega)
            exact open_flags_all_true es { st with phase := Phase.opened } (Or.inl ⟨rfl, hc⟩)
        · rw [step_opened_handshake st hph] at hlen ⊢
          simp only [List.nil_append] at hlen ⊢
          exact ih st hc i hi hlen
      | app_close =>
        rw [step_appclose st ha] at hlen ⊢
        dsimp only at hlen ⊢
        rw [run_halted es { st with phase := Phase.closed } (Or.inl rfl)] at hlen ⊢
        simp [openFlags] at hlen
      | transport_failure k r =>
        rw [step_failure st k r ha] at hlen ⊢
        cases hr : st.config.reconnect with
        | none =>
          rw [handleFailure_disabled st r hr] at hlen ⊢
          dsimp only at hlen ⊢
          rw [run_halted es { st with phase := Phase.failed } (Or.inr rfl)] at hlen ⊢
          simp [openFlags] at hlen
        | some p =>
          cases hcl : r.close with
          | true =>
            rw [handleFailure_close st r p hr hcl] at hlen ⊢
            dsimp only at hlen ⊢
            rw [run_halted es { st with phase := Phase.closed, aborted := true } (Or.inl rfl)]
              at hlen ⊢
            simp [openFlags] at hlen
          | false =>
            cases hx : retriesExhausted (applyUpdate st.config r.update)
                (st.attempt_count + 1) with
            | true =>
              rw [handleFailure_exhausted st r p hr hcl hx] at hlen ⊢
              dsimp only at hlen ⊢
              rw [run_halted es
                { st with config := applyUpdate st.config r.update, phase := Phase.failed }
                (Or.inr rfl)] at hlen ⊢
              simp [openFlags] at hlen
            | false =>
              rw [handleFailure_retry st r p hr hcl hx] at hlen ⊢
              simp only [List.singleton_append, openFlags_err] at hlen ⊢
              exact ih
                { (next_address { st with config := applyUpdate st.config r.update }).2 with
                  current_address :=
                    (next_address { st with config := applyUpdate st.config r.update }).1
                  attempt_count := st.attempt_count + 1
                  phase := Phase.connecting }
                (Nat.le_add_left 1 st.attempt_count) i hi hlen

/-- Claim C3 (amended): on one logical connection, the reconnected
predicate observed at a connection-open notification is true exactly
when at least one transport error was reported earlier on the
connection; consequently it can be false only at an open occurring on
the very first attempt (necessarily the first open), and it is true
for every successful open after the first. -/
theorem claim_C3_reconnected_at_opens (cfg : ConnectionConfiguration) (evs : List EEvent) :
    openFlagAgrees 0 (run (initState cfg) evs).2 = true ∧
    ∀ i : Nat, 0 < i → i < (openFlags (run (initState cfg) evs).2).length →
      (openFlags (run (initState cfg) evs).2).getD i false = true := by
  constructor
  · exact open_flags_agree evs (initState cfg) (by show 1 ≤ 1; omega)
  · intro i hi hlen
    exact later_open_flags_true evs (initState cfg) (by show 1 ≤ 1; omega) i hi hlen

/-- Counterexample to claim C3 as stated: when the first attempt fails
before opening and the second attempt completes the handshake, the
first and only successful open of the connection already reports
reconnected = true, so reconnected is not false at exactly the first
successful open. -/
theorem claim_C3_counterexample :
    openFlags (run (initState cfgBaseOnly) [plainFail, EEvent.handshake_ok]).2 = [true] := by
  rfl

/-- Witness for the amended claim C3: a run whose first attempt opens
reports reconnected false at the first open and true at the second. -/
theorem claim_C3_reconnected_at_opens_witness :
    (0 : Nat) < 1 ∧
    1 < (openFlags (run (initState cfgBaseOnly)
        [EEvent.handshake_ok, plainFail, EEvent.handshake_ok]).2).length ∧
    (openFlags (run (initState cfgBaseOnly)
        [EEvent.handshake_ok, plainFail, EEvent.handshake_ok]).2).getD 1 false = true :=
  ⟨by decide, by decide,
   (claim_C3_reconnected_at_opens cfgBaseOnly
      [EEvent.handshake_ok, plainFail, EEvent.handshake_ok]).2 1 (by decide) (by decide)⟩

end Reconnect
